import Mathlib

/-!
# qdrive: the per-test-case execution engine of `main.go`

A shallow embedding of the interop test harness: the status aggregator
(`testStatus`, `finished`), the orchestrator loop (`shuttle`) over the
multiplexed events of `runEndpoint`, endpoint construction
(`newClientEndpoint`, `newServerEndpoint`), the test-case runner (`run`,
the loop of `main`) and the datagram relay (`shuttle1`).

Go's `error` interface is a value that is either `nil` or an error; it is
embedded as `Option GoError`, `none` standing for `nil`.  Pointers that may
be `nil` (`*string`, `*net.UDPAddr`) are `Option`s in the same way.  What the
operating system and the child processes do (socket reads, lines on a pipe,
exit statuses) is an explicit input of each function.
-/

namespace Qdrive

/-! ## Data model -/

/-- A non-nil Go `error` value, identified by its message. -/
abbrev GoError := String

/-- The Go type `role` with its two constants `roleClient` and `roleServer`. -/
inductive role where
  | roleClient
  | roleServer
  deriving DecidableEq, Repr

/-- A UDP address (`net.UDPAddr`): host and port. -/
structure UDPAddr where
  host : String
  port : Nat
  deriving DecidableEq, Repr

/-- The Go struct `endpoint`.  The socket `sock` is identified by a number,
the process handle `cmd` by its command line.  The readers `out` and `err`
carry no data of their own here: what the process writes is passed to the
functions that read them. -/
structure endpoint where
  name : String
  role : role
  sock : Nat
  addr : Option UDPAddr
  cmd : List String
  status : Option GoError
  deriving DecidableEq, Repr

/-- The Go struct `failureReport`. -/
structure failureReport where
  testCase : String
  clErr : Option GoError
  srErr : Option GoError
  msg : String
  deriving DecidableEq, Repr

/-- The Go struct `testStatus`. -/
structure testStatus where
  ran : Nat
  succeeded : Nat
  failed : Nat
  failures : List failureReport
  deriving DecidableEq, Repr

/-- The initial value of the global variable `status`. -/
def status0 : testStatus := ⟨0, 0, 0, []⟩

/-- The Go struct `testCase`. -/
structure testCase where
  Name : String
  ClientArgs : List String
  ServerArgs : List String
  deriving DecidableEq, Repr

/-- The Go struct `implementation`. -/
structure implementation where
  Path : String
  Args : List String
  deriving DecidableEq, Repr

/-- The Go struct `endpoints`. -/
structure endpoints where
  Client : implementation
  Server : implementation
  deriving DecidableEq, Repr

/-- The constant `kMaxUdpPacket`. -/
def kMaxUdpPacket : Nat := 65535

/-! ## The status aggregator -/

/-- The method `testCase.finished`, with the global `status` passed in and
returned. -/
def finished (status : testStatus) (t : testCase) (clErr srErr : Option GoError)
    (msg : String) : testStatus :=
  if clErr = none ∧ srErr = none then
    { status with succeeded := status.succeeded + 1 }
  else
    { status with
      failed := status.failed + 1
      failures := status.failures ++ [⟨t.Name, clErr, srErr, msg⟩] }

/-! ## Strings -/

/-- The predicate `unicode.IsSpace` of Go, which `strings.TrimSpace` uses. -/
def isSpace (c : Char) : Bool :=
  let n := c.toNat
  (9 ≤ n && n ≤ 13) || n = 32 || n = 0x85 || n = 0xA0 || n = 0x1680 ||
  (0x2000 ≤ n && n ≤ 0x200A) || n = 0x2028 || n = 0x2029 || n = 0x202F ||
  n = 0x205F || n = 0x3000

/-- The function `strings.TrimSpace`: leading and trailing white space
removed. -/
def TrimSpace (s : String) : String :=
  String.mk ((s.data.dropWhile isSpace).reverse.dropWhile isSpace).reverse

/-! ## The event multiplexer and the orchestrator loop -/

/-- The two sides of a test case. -/
inductive Side where
  | client
  | server
  deriving DecidableEq, Repr

/-- What one of the three producers of `runEndpoint` hands to its merge
loop: `readOutput` sends a trimmed line (`c <- &str`) or, when its reader
fails or ends, the sentinel `c <- nil`; `waitClose` sends the result of
`cmd.Wait()`. -/
inductive MuxEvent where
  | line (text : String)
  | closed
  | exited (status : Option GoError)
  deriving DecidableEq, Repr

/-- The goroutine `readOutput`: what it sends, one after the other, when the
calls of `rdr.ReadString` return the given results.  A line is trimmed and
sent; at the first error (the end of the stream is one) the sentinel is sent
and the goroutine returns. -/
def readOutput : List (Except GoError String) → List MuxEvent
  | [] => []
  | .error _ :: _ => [.closed]
  | .ok str :: rest => .line (TrimSpace str) :: readOutput rest

/-- The goroutine `waitClose`: it sends the result of `cmd.Wait()` once. -/
def waitClose (s : Option GoError) : List MuxEvent := [.exited s]

/-- One turn of the `select` in `runEndpoint`: the endpoint after it and the
value republished on the outbound channel `c`.  A value from `out` or `err` is
forwarded as it is, the sentinel included; a value from `wait` is stored in
`e.status` and `nil` is sent. -/
def runEndpoint (e : endpoint) : MuxEvent → endpoint × Option String
  | .line text => (e, some text)
  | .closed => (e, none)
  | .exited r => ({ e with status := r }, none)

/-- The variables of the loop of `shuttle`. -/
structure LoopState where
  cl : endpoint
  sr : endpoint
  crun : Bool
  srun : Bool
  deriving DecidableEq, Repr

/-- What one pass through the body of the loop of `shuttle` does. -/
inductive Step where
  | next (st : LoopState)
  | ret (st : LoopState)
  deriving DecidableEq, Repr

/-- The body of the loop of `shuttle`: the `select` has received the value
that the side's `runEndpoint` republished for the event. -/
def shuttleStep (st : LoopState) : Side × MuxEvent → Step
  | (.client, ev) =>
    let (cl, r) := runEndpoint st.cl ev
    let st := { st with cl := cl }
    match r with
    | none => if cl.status ≠ none then .ret st else .next { st with crun := false }
    | some _ => .next st
  | (.server, ev) =>
    let (sr, r) := runEndpoint st.sr ev
    let st := { st with sr := sr }
    match r with
    | none => if sr.status ≠ none then .ret st else .next { st with srun := false }
    | some _ => .next st

/-- The loop `for crun || srun { select ... }` of `shuttle` over the events
in the order the `select` receives them.  The result is the state in which
`shuttle` returns together with the events it has not received; `none` when
the events run out while the loop is still waiting in its `select`. -/
def shuttleLoop : LoopState → List (Side × MuxEvent) →
    Option (LoopState × List (Side × MuxEvent))
  | st, [] => if st.crun || st.srun then none else some (st, [])
  | st, ev :: rest =>
    if st.crun || st.srun then
      match shuttleStep st ev with
      | .ret st1 => some (st1, rest)
      | .next st1 => shuttleLoop st1 rest
    else
      some (st, ev :: rest)

/-- The function `shuttle`: both flags start `true`. -/
def shuttle (cl sr : endpoint) (evs : List (Side × MuxEvent)) :
    Option (LoopState × List (Side × MuxEvent)) :=
  shuttleLoop ⟨cl, sr, true, true⟩ evs

/-! ## Endpoint construction -/

/-- What the operating system and the child process answer during the
construction of one endpoint, call by call. -/
structure EndpointEnv where
  /-- Result of `net.ListenUDP("udp", nil)`: the socket. -/
  listenUDP : Except GoError Nat
  /-- Result of `net.SplitHostPort(usock.LocalAddr().String())`: the port. -/
  splitHostPort : Except GoError String
  /-- Error of `e.cmd.StdoutPipe()`, if any. -/
  stdoutPipe : Option GoError
  /-- Error of `e.cmd.StderrPipe()`, if any. -/
  stderrPipe : Option GoError
  /-- Error of `cmd.Start()`, if any. -/
  start : Option GoError
  /-- Result of `ep.out.ReadString(10)`: the first line of standard output with
  its newline, or the error when the stream ends or fails before a newline.
  Only the server endpoint reads it. -/
  readString : Except GoError String
  deriving Repr

/-- The method `endpoint.getOutputs`: the error it returns, if any. -/
def getOutputs (env : EndpointEnv) : Option GoError :=
  match env.stdoutPipe with
  | some err => some err
  | none =>
    match env.stderrPipe with
    | some err => some err
    | none => none

/-- The function `newClientEndpoint`. -/
def newClientEndpoint (impl : implementation) (r : role) (args : List String)
    (env : EndpointEnv) : Except GoError endpoint :=
  match env.listenUDP with
  | .error err => .error err
  | .ok usock =>
    match env.splitHostPort with
    | .error err => .error err
    | .ok port =>
      let args := args ++ ["-addr", "localhost:" ++ port]
      let cmd := impl.Path :: (impl.Args ++ args)
      let ep : endpoint := ⟨"client", r, usock, none, cmd, none⟩
      match getOutputs env with
      | some err => .error err
      | none =>
        match env.start with
        | some err => .error err
        | none => .ok ep

/-- The function `newServerEndpoint`.  `resolve` is `net.ResolveUDPAddr` for
the network `udp`, a function of Go's standard library. -/
def newServerEndpoint (resolve : String → Except GoError UDPAddr)
    (impl : implementation) (r : role) (args : List String)
    (env : EndpointEnv) : Except GoError endpoint :=
  match env.listenUDP with
  | .error err => .error err
  | .ok usock =>
    match env.splitHostPort with
    | .error err => .error err
    | .ok port =>
      let args := args ++ ["-addr", "localhost:" ++ port]
      let cmd := impl.Path :: (impl.Args ++ args)
      let ep : endpoint := ⟨"server", r, usock, none, cmd, none⟩
      match getOutputs env with
      | some err => .error err
      | none =>
        match env.start with
        | some err => .error err
        | none =>
          match env.readString with
          | .error err => .error err
          | .ok sport =>
            let sport := TrimSpace sport
            match resolve ("localhost:" ++ sport) with
            | .error err => .error err
            | .ok a => .ok { ep with addr := some a }

/-! ## The resolver of Go's standard library

`net.ResolveUDPAddr` is not part of this repository.  The theorems about the
harness hold for every resolver; the model below fixes the behaviour of Go's
resolver on the addresses the harness builds, `localhost:` followed by the
announced port. -/

/-- The value of a string of decimal digits. -/
def decimalValue (digits : List Char) : Nat :=
  digits.foldl (fun n c => 10 * n + (c.toNat - 48)) 0

/-- A valid decimal port number: one or more decimal digits with a value of
at most 65535. -/
def isDecimalPort (s : String) : Bool :=
  !s.data.isEmpty && s.data.all Char.isDigit && decimalValue s.data ≤ 65535

/-- The function `net.SplitHostPort` on an address without an IPv6 literal:
the port is what follows the last colon, the host what precedes it and must
hold no colon, and no bracket may occur.  An address that starts with a
bracket is outside this model and is rejected; the harness resolves only
addresses that start with `localhost:`. -/
def SplitHostPort (hostport : String) : Except GoError (String × String) :=
  let rev := hostport.data.reverse
  let portRev := rev.takeWhile (fun c => c != ':')
  if portRev.length = rev.length then .error "missing port in address"
  else
    let host := (rev.drop (portRev.length + 1)).reverse
    if host.contains ':' then .error "too many colons in address"
    else if hostport.data.contains '[' then .error "unexpected [ in address"
    else if hostport.data.contains ']' then .error "unexpected ] in address"
    else .ok (String.mk host, String.mk portRev.reverse)

/-- The function `net.LookupPort` for the network `udp`: the empty port is
port 0 (Go keeps this legacy behaviour on purpose), a decimal number of at
most 65535 is that port, and `other` stands for what the library does with
any other string: service names, signed and out-of-range numbers. -/
def LookupPort (other : String → Option Nat) (service : String) : Except GoError Nat :=
  if service = "" then .ok 0
  else if isDecimalPort service then .ok (decimalValue service.data)
  else
    match other service with
    | some port => .ok port
    | none => .error "unknown port"

/-- The function `net.ResolveUDPAddr` for the network `udp` and a host that
resolves: the address is split and its port looked up. -/
def ResolveUDPAddr (other : String → Option Nat) (address : String) :
    Except GoError UDPAddr :=
  match SplitHostPort address with
  | .error err => .error err
  | .ok (host, port) =>
    match LookupPort other port with
    | .error err => .error err
    | .ok n => .ok ⟨host, n⟩

/-- A stand-in for what the library does with a port that is neither empty
nor a decimal number of at most 65535: it knows the one entry `domain` of
Go's built-in table for `udp`.  The further strings that the library accepts
(signed numbers, names in other letter case, the names of the host's services
file) are left out of it. -/
def goServices (service : String) : Option Nat :=
  if service = "domain" then some 53 else none

/-! ## The test-case runner -/

/-- Everything outside the harness that one test case meets: the answers to
the construction of its two endpoints and the events of the two child
processes in the order the `select` of `shuttle` receives them. -/
structure CaseEnv where
  client : EndpointEnv
  server : EndpointEnv
  events : List (Side × MuxEvent)
  deriving Repr

/-- How a call of `testCase.run` ends: it returns, with the global `status`
after it and its error, or it never returns because `shuttle` waits for an
event that does not come. -/
inductive RunResult where
  | returned (status : testStatus) (err : Option GoError)
  | blocked
  deriving DecidableEq, Repr

/-- The method `testCase.run`.  The statuses passed to `finished` are those
of the state in which `shuttle` returned: an exit status counts as stored
when `shuttle` receives the event that carries it.  In the program
`runEndpoint` stores the status just before it sends, so a status stored for
an event that `shuttle` no longer receives can still be read by `finished`;
the events are to be read as what has happened by the time `finished`
runs. -/
def run (resolve : String → Except GoError UDPAddr) (status : testStatus)
    (t : testCase) (e : endpoints) (env : CaseEnv) : RunResult :=
  match newClientEndpoint e.Client .roleClient t.ClientArgs env.client with
  | .error err => .returned status (some err)
  | .ok cl =>
    match newServerEndpoint resolve e.Server .roleServer t.ServerArgs env.server with
    | .error err => .returned status (some err)
    | .ok sr =>
      match shuttle cl sr env.events with
      | none => .blocked
      | some (st, _) => .returned (finished status t st.cl.status st.sr.status "Failed") none

/-- How `main` ends after its configuration is read: it reaches
`reportResults`, or it prints `Internal error` and returns, or it never
returns. -/
inductive MainResult where
  | reported (status : testStatus)
  | internalError (status : testStatus) (err : GoError)
  | blocked (status : testStatus)
  deriving DecidableEq, Repr

/-- The loop `for _, c := range cases.Cases` of `main`, from a value of the
global `status`; each case comes with what it meets outside the harness. -/
def mainLoop (resolve : String → Except GoError UDPAddr) (conf : endpoints) :
    testStatus → List (testCase × CaseEnv) → MainResult
  | status, [] => .reported status
  | status, (c, env) :: rest =>
    let status := { status with ran := status.ran + 1 }
    match run resolve status c conf env with
    | .returned status1 (some err) => .internalError status1 err
    | .returned status1 none => mainLoop resolve conf status1 rest
    | .blocked => .blocked status

/-! ## The datagram relay -/

/-- A byte of a datagram. -/
abbrev Byte := Fin 256

/-- What a blocking `sock.ReadFromUDP(buf)` meets: an error, or a datagram
with the address of its sender. -/
inductive Arrival where
  | failed (err : GoError)
  | datagram (payload : List Byte) (sender : UDPAddr)
  deriving DecidableEq, Repr

/-- The method `ReadFromUDP` on a buffer of `size` bytes: the count `n`, the
slice `buf[:n]` after the call and the sender, or the error.  A datagram
longer than the buffer is cut to the buffer. -/
def ReadFromUDP (size : Nat) : Arrival → Except GoError (Nat × List Byte × UDPAddr)
  | .failed err => .error err
  | .datagram payload sender =>
    let n := min payload.length size
    .ok (n, payload.take n, sender)

/-- A call `sock.WriteToUDP(b, addr)` as the relay issues it, with the error
it returned. -/
structure WriteCall where
  sock : Nat
  b : List Byte
  addr : Option UDPAddr
  err : Option GoError
  deriving DecidableEq, Repr

/-- The method `WriteToUDP` of an unconnected socket: without a destination
address the call fails; with one, the operating system decides (`os`). -/
def WriteToUDP (sock : Nat) (b : List Byte) (addr : Option UDPAddr)
    (os : Option GoError) : WriteCall :=
  match addr with
  | none => ⟨sock, b, none, some "missing address"⟩
  | some a => ⟨sock, b, some a, os⟩

/-- One pass through the loop of `shuttle1(from, to)`, where `src` is `from`
and `dst` is `to`: the source endpoint after it, the write it issued, and
whether the loop goes on (`false` is the `break`). -/
def shuttle1Step (src dst : endpoint) (arrival : Arrival) (os : Option GoError) :
    endpoint × Option WriteCall × Bool :=
  match ReadFromUDP kMaxUdpPacket arrival with
  | .error _ => (src, none, true)
  | .ok (_, bufn, addr) =>
    let src := if src.addr = none then { src with addr := some addr } else src
    let w := WriteToUDP dst.sock bufn dst.addr os
    (src, some w, w.err = none)

/-- The two directions of the relay: the goroutines `shuttle1(cl, sr)` and
`shuttle1(sr, cl)`. -/
inductive Direction where
  | clientToServer
  | serverToClient
  deriving DecidableEq, Repr

/-- The two endpoints as the two relay goroutines share them, which of the
two loops is still running, and the writes issued so far, oldest first. -/
structure RelayState where
  cl : endpoint
  sr : endpoint
  c2s : Bool
  s2c : Bool
  writes : List WriteCall
  deriving DecidableEq, Repr

/-- The relay when `shuttle` starts it. -/
def relayInit (cl sr : endpoint) : RelayState := ⟨cl, sr, true, true, []⟩

/-- One pass of one of the two relay loops, taken as one step: which
direction, what its read meets and what the operating system answers to its
write. -/
structure RelayEvent where
  dir : Direction
  arrival : Arrival
  os : Option GoError
  deriving DecidableEq, Repr

/-- The relay after one pass of one of its loops.  A loop that has left
through `break` reads nothing any more. -/
def relayStep (st : RelayState) (ev : RelayEvent) : RelayState :=
  match ev.dir with
  | .clientToServer =>
    if st.c2s then
      let (cl, w, go) := shuttle1Step st.cl st.sr ev.arrival ev.os
      { st with cl := cl, c2s := go, writes := st.writes ++ w.toList }
    else st
  | .serverToClient =>
    if st.s2c then
      let (sr, w, go) := shuttle1Step st.sr st.cl ev.arrival ev.os
      { st with sr := sr, s2c := go, writes := st.writes ++ w.toList }
    else st

/-- The relay after a sequence of passes. -/
def relay (st : RelayState) (evs : List RelayEvent) : RelayState :=
  evs.foldl relayStep st

/-- The sender of the first datagram that a direction reads without error. -/
def firstSender (d : Direction) : List RelayEvent → Option UDPAddr
  | [] => none
  | ev :: rest =>
    match ev.arrival with
    | .datagram _ sender => if ev.dir = d then some sender else firstSender d rest
    | .failed _ => firstSender d rest

/-- The exit statuses `cl.status` and `sr.status` with which `run` calls
`finished` for a case: those of the state in which `shuttle` returns.  `none`
when an endpoint cannot be built or `shuttle` does not return. -/
def finalStatuses (resolve : String → Except GoError UDPAddr) (conf : endpoints)
    (c : testCase × CaseEnv) : Option (Option GoError × Option GoError) :=
  match newClientEndpoint conf.Client .roleClient c.1.ClientArgs c.2.client,
    newServerEndpoint resolve conf.Server .roleServer c.1.ServerArgs c.2.server with
  | .ok cl, .ok sr =>
    match shuttle cl sr c.2.events with
    | some (st, _) => some (st.cl.status, st.sr.status)
    | none => none
  | _, _ => none

/-- A case whose two final statuses are both nil. -/
def passes (resolve : String → Except GoError UDPAddr) (conf : endpoints)
    (c : testCase × CaseEnv) : Bool :=
  finalStatuses resolve conf c = some (none, none)

/-- The failure report of a case that has final statuses not both nil. -/
def reportOf (resolve : String → Except GoError UDPAddr) (conf : endpoints)
    (c : testCase × CaseEnv) : Option failureReport :=
  match finalStatuses resolve conf c with
  | none => none
  | some (none, none) => none
  | some (clErr, srErr) => some ⟨c.1.Name, clErr, srErr, "Failed"⟩

/-! ## Sample inputs -/

/-- A resolver that accepts every address as port 4433 on localhost. -/
def resolveAny (_ : String) : Except GoError UDPAddr := .ok ⟨"localhost", 4433⟩

/-- A construction in which every call succeeds and the child announces
port 4433. -/
def envOk : EndpointEnv :=
  ⟨.ok 3, .ok "50000", none, none, none, .ok "4433\n"⟩

/-- A configuration of two implementations. -/
def confSample : endpoints := ⟨⟨"./client", []⟩, ⟨"./server", ["-v"]⟩⟩

/-- A test case. -/
def caseA : testCase := ⟨"handshake", [], []⟩

/-- A second test case. -/
def caseB : testCase := ⟨"resume", ["-resume"], []⟩

/-- Both processes exit cleanly, the server first. -/
def eventsClean : List (Side × MuxEvent) :=
  [(.client, .line "connected"), (.server, .exited none), (.client, .exited none)]

/-- The server exits with an error before the client says anything. -/
def eventsServerFails : List (Side × MuxEvent) :=
  [(.server, .exited (some "exit status 1")), (.client, .exited none)]

/-- Both processes close their standard output and go on running. -/
def eventsClosedOnly : List (Side × MuxEvent) :=
  [(.client, .closed), (.server, .closed)]

/-- Both processes close their standard output, then each exits with an
error. -/
def eventsClosedFirst : List (Side × MuxEvent) :=
  [(.client, .closed), (.server, .closed), (.client, .exited (some "exit status 1")),
   (.server, .exited (some "exit status 2"))]

/-- The client endpoint that `newClientEndpoint` builds from `envOk`. -/
def clSample : endpoint :=
  ⟨"client", .roleClient, 3, none, ["./client", "-addr", "localhost:50000"], none⟩

/-- The server endpoint that `newServerEndpoint` builds from `envOk`. -/
def srSample : endpoint :=
  ⟨"server", .roleServer, 3, some ⟨"localhost", 4433⟩,
    ["./server", "-v", "-addr", "localhost:50000"], none⟩

/-- A construction in which the child process cannot be started. -/
def envNoStart : EndpointEnv :=
  ⟨.ok 3, .ok "50000", none, none, some "exec: not found", .ok "4433\n"⟩

/-- The first case fails because the server exits with an error. -/
def caseFails : testCase × CaseEnv := (caseA, ⟨envOk, envOk, eventsServerFails⟩)

/-- The second case succeeds. -/
def caseSucceeds : testCase × CaseEnv := (caseB, ⟨envOk, envOk, eventsClean⟩)

/-- A case whose server cannot be started. -/
def caseBroken : testCase × CaseEnv := (caseB, ⟨envOk, envNoStart, eventsClean⟩)

/-- A construction in which the server's first line is blank. -/
def envBlankLine : EndpointEnv :=
  ⟨.ok 3, .ok "50000", none, none, none, .ok "\n"⟩

/-- A construction in which the server's first line is a service name. -/
def envServiceName : EndpointEnv :=
  ⟨.ok 3, .ok "50000", none, none, none, .ok "domain\n"⟩

/-- A construction in which the server's first line is a greeting. -/
def envGreeting : EndpointEnv :=
  ⟨.ok 3, .ok "50000", none, none, none, .ok "listening on 4433\n"⟩

/-! ## The status aggregator: theorems -/

/-- C4: when both exit statuses passed to `finished` are nil, the succeeded
counter grows by exactly one and the failed counter, the ran counter and the
list of failure reports are left as they were, for every aggregator state,
test case and message. -/
theorem finished_success_frame (status : testStatus) (t : testCase) (msg : String) :
    (finished status t none none msg).succeeded = status.succeeded + 1 ∧
    (finished status t none none msg).failed = status.failed ∧
    (finished status t none none msg).ran = status.ran ∧
    (finished status t none none msg).failures = status.failures := by
  simp [finished]

/-- What `finished` does when one of the two statuses is an error. -/
theorem finished_of_failure (status : testStatus) (t : testCase)
    (clErr srErr : Option GoError) (msg : String) (h : clErr ≠ none ∨ srErr ≠ none) :
    finished status t clErr srErr msg =
      { status with
        failed := status.failed + 1
        failures := status.failures ++ [⟨t.Name, clErr, srErr, msg⟩] } := by
  unfold finished
  rw [if_neg]
  rintro ⟨h1, h2⟩
  rcases h with h | h
  · exact h h1
  · exact h h2

/-- What `run` returns once both endpoints are built and `shuttle` returns. -/
theorem run_of_shuttle (resolve : String → Except GoError UDPAddr) (status : testStatus)
    (t : testCase) (conf : endpoints) (env : CaseEnv) (cl sr : endpoint)
    (st : LoopState) (rest : List (Side × MuxEvent))
    (hcl : newClientEndpoint conf.Client .roleClient t.ClientArgs env.client = .ok cl)
    (hsr : newServerEndpoint resolve conf.Server .roleServer t.ServerArgs env.server = .ok sr)
    (hsh : shuttle cl sr env.events = some (st, rest)) :
    run resolve status t conf env =
      .returned (finished status t st.cl.status st.sr.status "Failed") none := by
  simp [run, hcl, hsr, hsh]

/-- C5: when at least one of the two exit statuses passed to `finished` is
non-nil, the failed counter grows by exactly one, the succeeded counter (and
the ran counter) is unchanged and exactly one failure report, carrying the
name of the case, both statuses and the message, is appended after the
existing reports, which stay as they were; and when these are the statuses
with which `shuttle` returned, `run` returns no error and the loop of `main`
goes on with the next case. -/
theorem finished_failure_then_next_case (status : testStatus) (t : testCase)
    (clErr srErr : Option GoError) (h : clErr ≠ none ∨ srErr ≠ none) :
    (∀ msg : String,
      (finished status t clErr srErr msg).failed = status.failed + 1 ∧
      (finished status t clErr srErr msg).succeeded = status.succeeded ∧
      (finished status t clErr srErr msg).ran = status.ran ∧
      (finished status t clErr srErr msg).failures =
        status.failures ++ [⟨t.Name, clErr, srErr, msg⟩]) ∧
    (∀ (resolve : String → Except GoError UDPAddr) (conf : endpoints) (env : CaseEnv)
        (cl sr : endpoint) (st : LoopState) (rest : List (Side × MuxEvent))
        (later : List (testCase × CaseEnv)),
      newClientEndpoint conf.Client .roleClient t.ClientArgs env.client = .ok cl →
      newServerEndpoint resolve conf.Server .roleServer t.ServerArgs env.server = .ok sr →
      shuttle cl sr env.events = some (st, rest) →
      st.cl.status = clErr → st.sr.status = srErr →
      run resolve status t conf env =
        .returned (finished status t clErr srErr "Failed") none ∧
      mainLoop resolve conf status ((t, env) :: later) =
        mainLoop resolve conf
          (finished { status with ran := status.ran + 1 } t clErr srErr "Failed") later) := by
  refine ⟨fun msg => ?_, ?_⟩
  · rw [finished_of_failure status t clErr srErr msg h]
    simp
  · intro resolve conf env cl sr st rest later hcl hsr hsh h1 h2
    have hrun := run_of_shuttle resolve status t conf env cl sr st rest hcl hsr hsh
    rw [h1, h2] at hrun
    refine ⟨hrun, ?_⟩
    have hrun1 := run_of_shuttle resolve { status with ran := status.ran + 1 } t conf env
      cl sr st rest hcl hsr hsh
    rw [h1, h2] at hrun1
    simp only [mainLoop, hrun1]

/-- C5 at a concrete case: the server exits with an error, a second case
is configured after it. -/
theorem finished_failure_then_next_case_witness :
    (finished status0 caseA none (some "exit status 1") "Failed").failed = 1 ∧
    (finished status0 caseA none (some "exit status 1") "Failed").failures =
      [⟨"handshake", none, some "exit status 1", "Failed"⟩] ∧
    run resolveAny status0 caseA confSample ⟨envOk, envOk, eventsServerFails⟩ =
      .returned ⟨0, 0, 1, [⟨"handshake", none, some "exit status 1", "Failed"⟩]⟩ none ∧
    mainLoop resolveAny confSample status0 [caseFails, caseSucceeds] =
      mainLoop resolveAny confSample
        ⟨1, 0, 1, [⟨"handshake", none, some "exit status 1", "Failed"⟩]⟩ [caseSucceeds] :=
  have h := finished_failure_then_next_case status0 caseA none (some "exit status 1")
    (Or.inr (by simp))
  have hrun := h.2 resolveAny confSample ⟨envOk, envOk, eventsServerFails⟩ clSample srSample
    ⟨clSample, { srSample with status := some "exit status 1" }, true, true⟩
    [(.client, .exited none)] [caseSucceeds] rfl rfl rfl rfl rfl
  ⟨(h.1 "Failed").1, (h.1 "Failed").2.2.2, hrun.1, hrun.2⟩

/-- A case with final statuses makes `run` return the result of `finished`
on them, with no error. -/
theorem run_of_finalStatuses (resolve : String → Except GoError UDPAddr)
    (conf : endpoints) (status : testStatus) (t : testCase) (env : CaseEnv)
    (a b : Option GoError) (h : finalStatuses resolve conf (t, env) = some (a, b)) :
    run resolve status t conf env = .returned (finished status t a b "Failed") none := by
  unfold finalStatuses at h
  simp only at h
  split at h
  · rename_i cl sr hcl hsr
    split at h
    · rename_i st rest hsh
      simp only [Option.some.injEq, Prod.mk.injEq] at h
      rw [run_of_shuttle resolve status t conf env cl sr st rest hcl hsr hsh, h.1, h.2]
    · exact absurd h (by simp)
  · exact absurd h (by simp)

/-- A call of `run` that returns an error leaves the aggregator as it was. -/
theorem run_error_status (resolve : String → Except GoError UDPAddr)
    (conf : endpoints) (status status1 : testStatus) (t : testCase) (env : CaseEnv)
    (err : GoError) (h : run resolve status t conf env = .returned status1 (some err)) :
    status1 = status := by
  unfold run at h
  split at h
  · simp only [RunResult.returned.injEq] at h
    exact h.1.symm
  · split at h
    · simp only [RunResult.returned.injEq] at h
      exact h.1.symm
    · split at h
      · exact absurd h (by simp)
      · simp at h

/-- The loop of `main` over a list that continues a list it has completed. -/
theorem mainLoop_append (resolve : String → Except GoError UDPAddr) (conf : endpoints)
    (earlier later : List (testCase × CaseEnv)) (status status1 : testStatus)
    (h : mainLoop resolve conf status earlier = .reported status1) :
    mainLoop resolve conf status (earlier ++ later) = mainLoop resolve conf status1 later := by
  induction earlier generalizing status with
  | nil =>
    simp only [mainLoop, MainResult.reported.injEq] at h
    simp [h]
  | cons c cs ih =>
    obtain ⟨t, env⟩ := c
    simp only [mainLoop, List.cons_append] at h ⊢
    split at h
    · exact absurd h (by simp)
    · rename_i s1 hrun
      exact ih s1 h
    · exact absurd h (by simp)

/-! ## The orchestrator loop: theorems -/

/-- C2, the code at a concrete loop state: at the end of a stream
`readOutput` sends its sentinel; while the client's exit status is still
unset, that sentinel clears the client's running flag instead of being
ignored, and the same sentinel from the server then ends the loop, although
no process-exit event has been received. -/
theorem shuttle_closed_sentinel_clears_flag :
    readOutput [.ok "connected\n", .error "EOF"] = [.line "connected", .closed] ∧
    shuttleStep ⟨clSample, srSample, true, true⟩ (.client, .closed) =
      .next ⟨clSample, srSample, false, true⟩ ∧
    shuttle clSample srSample [(.client, .closed), (.server, .closed)] =
      some (⟨clSample, srSample, false, false⟩, []) := by
  decide

/-- What the loop of `shuttle` computes on a sentinel, in every state: an
output line changes nothing; the sentinel of a closed stream from a side
whose exit status is unset is taken for a process exit of that side and gives
the same state as a clean exit: that side's running flag is cleared, the
other flag and both endpoints are as they were.  From a state with both flags
set the loop then goes on with the next event (and waits when there is
none); with the other flag already cleared it ends, the later events
unreceived. -/
theorem shuttle_sentinel_like_clean_exit (st : LoopState) (rest : List (Side × MuxEvent)) :
    (∀ (side : Side) (text : String), shuttleStep st (side, .line text) = .next st) ∧
    (st.cl.status = none →
      shuttleStep st (.client, .closed) = .next { st with crun := false } ∧
      shuttleStep st (.client, .exited none) = .next { st with crun := false } ∧
      (st.crun = true → st.srun = true →
        shuttleLoop st ((.client, .closed) :: rest) =
          shuttleLoop { st with crun := false } rest ∧
        shuttleLoop st [(.client, .closed)] = none) ∧
      (st.crun = true → st.srun = false →
        shuttleLoop st ((.client, .closed) :: rest) =
          some ({ st with crun := false }, rest))) ∧
    (st.sr.status = none →
      shuttleStep st (.server, .closed) = .next { st with srun := false } ∧
      shuttleStep st (.server, .exited none) = .next { st with srun := false } ∧
      (st.srun = true → st.crun = true →
        shuttleLoop st ((.server, .closed) :: rest) =
          shuttleLoop { st with srun := false } rest ∧
        shuttleLoop st [(.server, .closed)] = none) ∧
      (st.srun = true → st.crun = false →
        shuttleLoop st ((.server, .closed) :: rest) =
          some ({ st with srun := false }, rest))) := by
  obtain ⟨cl, sr, crun, srun⟩ := st
  refine ⟨?_, ?_, ?_⟩
  · intro side text
    cases side <;> simp [shuttleStep, runEndpoint]
  · intro h
    simp only at h
    have hcl : ({ cl with status := none } : endpoint) = cl := by
      cases cl
      simp only at h
      simp [h]
    refine ⟨by simp [shuttleStep, runEndpoint, h], by simp [shuttleStep, runEndpoint, hcl, h],
      ?_, ?_⟩
    · intro h1 h2
      simp only at h1 h2
      subst h1 h2
      constructor
      · simp [shuttleLoop, shuttleStep, runEndpoint, h]
      · simp [shuttleLoop, shuttleStep, runEndpoint, h]
    · intro h1 h2
      simp only at h1 h2
      subst h1 h2
      cases rest <;> simp [shuttleLoop, shuttleStep, runEndpoint, h]
  · intro h
    simp only at h
    have hsr : ({ sr with status := none } : endpoint) = sr := by
      cases sr
      simp only at h
      simp [h]
    refine ⟨by simp [shuttleStep, runEndpoint, h], by simp [shuttleStep, runEndpoint, hsr, h],
      ?_, ?_⟩
    · intro h1 h2
      simp only at h1 h2
      subst h1 h2
      constructor
      · simp [shuttleLoop, shuttleStep, runEndpoint, h]
      · simp [shuttleLoop, shuttleStep, runEndpoint, h]
    · intro h1 h2
      simp only at h1 h2
      subst h1 h2
      cases rest <;> simp [shuttleLoop, shuttleStep, runEndpoint, h]

/-- C1, the code at two concrete event sequences: both processes close
their standard output and no process exits, or both exit with an error only
afterwards; `shuttle` returns after the two sentinels and `run` records the
case as succeeded. -/
theorem run_succeeded_without_clean_exit :
    run resolveAny status0 caseA confSample ⟨envOk, envOk, eventsClosedOnly⟩ =
      .returned ⟨0, 1, 0, []⟩ none ∧
    run resolveAny status0 caseA confSample ⟨envOk, envOk, eventsClosedFirst⟩ =
      .returned ⟨0, 1, 0, []⟩ none := by
  decide

/-- C3: in every state in which the loop of `shuttle` is running, a
process-exit event of either side that carries an error makes `shuttle`
return at that event: the later events stay unreceived, the flags and the
other endpoint are as they were, and the `finished` call that follows counts
the case as failed (failed counter plus one, succeeded counter unchanged) and
appends one report with that error on its side; when it is the server that
exited and the client has no error, the report has the server error and a nil
client error. -/
theorem shuttle_returns_on_exit_error (st : LoopState) (err : GoError)
    (rest : List (Side × MuxEvent)) (status : testStatus) (t : testCase)
    (hloop : (st.crun || st.srun) = true) :
    (shuttleLoop st ((.client, .exited (some err)) :: rest) =
        some ({ st with cl := { st.cl with status := some err } }, rest) ∧
      finished status t (some err) st.sr.status "Failed" =
        { status with
          failed := status.failed + 1
          failures := status.failures ++ [⟨t.Name, some err, st.sr.status, "Failed"⟩] }) ∧
    (shuttleLoop st ((.server, .exited (some err)) :: rest) =
        some ({ st with sr := { st.sr with status := some err } }, rest) ∧
      finished status t st.cl.status (some err) "Failed" =
        { status with
          failed := status.failed + 1
          failures := status.failures ++ [⟨t.Name, st.cl.status, some err, "Failed"⟩] }) ∧
    (st.cl.status = none →
      finished status t st.cl.status (some err) "Failed" =
        { status with
          failed := status.failed + 1
          failures := status.failures ++ [⟨t.Name, none, some err, "Failed"⟩] }) := by
  refine ⟨⟨?_, ?_⟩, ⟨?_, ?_⟩, ?_⟩
  · simp [shuttleLoop, hloop, shuttleStep, runEndpoint]
  · exact finished_of_failure status t _ _ _ (Or.inl (by simp))
  · simp [shuttleLoop, hloop, shuttleStep, runEndpoint]
  · exact finished_of_failure status t _ _ _ (Or.inr (by simp))
  · intro h
    rw [h]
    exact finished_of_failure status t _ _ _ (Or.inr (by simp))

/-- C3 at a concrete case: the server exits with an error before any other
event; the client's exit is left unreceived. -/
theorem shuttle_returns_on_exit_error_witness :
    shuttle clSample srSample eventsServerFails =
      some (⟨clSample, { srSample with status := some "exit status 1" }, true, true⟩,
        [(.client, .exited none)]) ∧
    finished status0 caseA none (some "exit status 1") "Failed" =
      ⟨0, 0, 1, [⟨"handshake", none, some "exit status 1", "Failed"⟩]⟩ :=
  have h := shuttle_returns_on_exit_error ⟨clSample, srSample, true, true⟩ "exit status 1"
    [(.client, .exited none)] status0 caseA (by decide)
  ⟨h.2.1.1, h.2.2 rfl⟩

/-! ## The loop of `main`: theorems -/

/-- The aggregator after the loop of `main` over cases that all have final
statuses, from any aggregator state. -/
theorem mainLoop_reported_from (resolve : String → Except GoError UDPAddr)
    (conf : endpoints) (cases : List (testCase × CaseEnv)) (status : testStatus)
    (hall : ∀ c ∈ cases, (finalStatuses resolve conf c).isSome = true) :
    mainLoop resolve conf status cases =
      .reported
        ⟨status.ran + cases.length,
         status.succeeded + (cases.filter (passes resolve conf)).length,
         status.failed + (cases.filter (fun c => !passes resolve conf c)).length,
         status.failures ++ cases.filterMap (reportOf resolve conf)⟩ := by
  induction cases generalizing status with
  | nil => simp [mainLoop]
  | cons c cs ih =>
    obtain ⟨t, env⟩ := c
    have hc := hall (t, env) (List.mem_cons_self _ _)
    have hcs : ∀ c ∈ cs, (finalStatuses resolve conf c).isSome = true :=
      fun c hmem => hall c (List.mem_cons_of_mem _ hmem)
    obtain ⟨⟨a, b⟩, hab⟩ := Option.isSome_iff_exists.mp hc
    have hrun := run_of_finalStatuses resolve conf { status with ran := status.ran + 1 }
      t env a b hab
    simp only [mainLoop, hrun]
    rw [ih _ hcs]
    by_cases hnn : a = none ∧ b = none
    · obtain ⟨ha, hb⟩ := hnn
      subst ha hb
      have hp : passes resolve conf (t, env) = true := by simp [passes, hab]
      have hr : reportOf resolve conf (t, env) = none := by simp [reportOf, hab]
      simp only [finished, and_self, if_true, List.filter_cons, hp, List.filterMap_cons, hr,
        List.length_cons, Bool.not_true, MainResult.reported.injEq, testStatus.mk.injEq]
      refine ⟨by omega, by omega, by simp, trivial⟩
    · have hp : passes resolve conf (t, env) = false := by
        simp only [passes, hab, Option.some.injEq, Prod.mk.injEq, decide_eq_false_iff_not]
        exact hnn
      have hr : reportOf resolve conf (t, env) = some ⟨t.Name, a, b, "Failed"⟩ := by
        unfold reportOf
        rw [hab]
        split
        · rename_i heq
          exact absurd heq (by simp)
        · rename_i heq
          simp only [Option.some.injEq, Prod.mk.injEq] at heq
          exact absurd ⟨heq.1, heq.2⟩ hnn
        · rename_i c1 s1 hne heq
          simp only [Option.some.injEq, Prod.mk.injEq] at heq
          rw [heq.1, heq.2]
      have hf : ¬ (a = none ∧ b = none) := hnn
      simp only [finished, hf, if_false, List.filter_cons, hp, List.filterMap_cons, hr,
        List.length_cons, Bool.not_false, MainResult.reported.injEq, testStatus.mk.injEq]
      refine ⟨by omega, by simp, by simp; omega, by simp⟩

/-- A list splits into the elements that satisfy a test and those that do
not. -/
theorem length_filter_split {α : Type} (p : α → Bool) (l : List α) :
    l.length = (l.filter p).length + (l.filter (fun c => !p c)).length := by
  induction l with
  | nil => simp
  | cons c cs ih =>
    cases hp : p c
    · simp only [List.length_cons, List.filter_cons, hp, Bool.not_false, if_true]
      simp only [Bool.false_eq_true, if_false, List.length_cons]
      omega
    · simp only [List.length_cons, List.filter_cons, hp, Bool.not_true, if_true]
      simp only [Bool.false_eq_true, if_false, List.length_cons]
      omega

/-- The report of a case is absent exactly when the case passes, and carries
the name of the case otherwise, provided the case has final statuses. -/
theorem reportOf_cases (resolve : String → Except GoError UDPAddr) (conf : endpoints)
    (c : testCase × CaseEnv) (h : (finalStatuses resolve conf c).isSome = true) :
    (passes resolve conf c = true ∧ reportOf resolve conf c = none) ∨
    (passes resolve conf c = false ∧
      ∃ r, reportOf resolve conf c = some r ∧ r.testCase = c.1.Name) := by
  obtain ⟨⟨a, b⟩, hab⟩ := Option.isSome_iff_exists.mp h
  by_cases hnn : a = none ∧ b = none
  · obtain ⟨ha, hb⟩ := hnn
    subst ha hb
    exact Or.inl ⟨by simp [passes, hab], by simp [reportOf, hab]⟩
  · refine Or.inr ⟨?_, ⟨c.1.Name, a, b, "Failed"⟩, ?_, rfl⟩
    · simp only [passes, hab, Option.some.injEq, Prod.mk.injEq, decide_eq_false_iff_not]
      exact hnn
    · unfold reportOf
      rw [hab]
      split
      · rename_i heq
        exact absurd heq (by simp)
      · rename_i heq
        simp only [Option.some.injEq, Prod.mk.injEq] at heq
        exact absurd ⟨heq.1, heq.2⟩ hnn
      · rename_i c1 s1 hne heq
        simp only [Option.some.injEq, Prod.mk.injEq] at heq
        rw [heq.1, heq.2]

/-- The names on the reports are the names of the cases that do not pass, in
case order. -/
theorem reportOf_names (resolve : String → Except GoError UDPAddr) (conf : endpoints)
    (cases : List (testCase × CaseEnv))
    (hall : ∀ c ∈ cases, (finalStatuses resolve conf c).isSome = true) :
    (cases.filterMap (reportOf resolve conf)).map (fun r => r.testCase) =
      (cases.filter (fun c => !passes resolve conf c)).map (fun c => c.1.Name) := by
  induction cases with
  | nil => simp
  | cons c cs ih =>
    have hcs := ih (fun c hmem => hall c (List.mem_cons_of_mem _ hmem))
    rcases reportOf_cases resolve conf c (hall c (List.mem_cons_self _ _)) with
      ⟨hp, hr⟩ | ⟨hp, r, hr, hname⟩
    · simp only [List.filterMap_cons, hr, List.filter_cons, hp, Bool.not_true]
      simpa using hcs
    · simp only [List.filterMap_cons, hr, List.filter_cons, hp, Bool.not_false, if_true,
        List.map_cons, hname, hcs]

/-- C6: when `run` returns an error on a case, after earlier cases that all
completed, the loop of `main` stops there with that error: the result does
not depend on the later cases, none of which is run (the ran counter stands
at the earlier cases plus the aborted one), and the succeeded counter, the
failed counter and the failure reports are those accumulated from the earlier
cases. -/
theorem main_aborts_on_internal_error (resolve : String → Except GoError UDPAddr)
    (conf : endpoints) (earlier later : List (testCase × CaseEnv)) (t : testCase)
    (env : CaseEnv) (status status1 status2 : testStatus) (err : GoError)
    (hearlier : mainLoop resolve conf status earlier = .reported status1)
    (hrun : run resolve { status1 with ran := status1.ran + 1 } t conf env =
      .returned status2 (some err)) :
    mainLoop resolve conf status (earlier ++ (t, env) :: later) = .internalError status2 err ∧
    mainLoop resolve conf status (earlier ++ (t, env) :: later) =
      mainLoop resolve conf status (earlier ++ [(t, env)]) ∧
    status2.succeeded = status1.succeeded ∧
    status2.failed = status1.failed ∧
    status2.failures = status1.failures ∧
    status2.ran = status1.ran + 1 := by
  have hs := run_error_status resolve conf _ status2 t env err hrun
  have hmain : ∀ more : List (testCase × CaseEnv),
      mainLoop resolve conf status (earlier ++ (t, env) :: more) =
        .internalError status2 err := by
    intro more
    rw [mainLoop_append resolve conf earlier _ status status1 hearlier]
    simp only [mainLoop, hrun]
  refine ⟨hmain later, ?_, ?_, ?_, ?_, ?_⟩
  · rw [hmain later, hmain []]
  all_goals simp [hs]

/-- C6 at a concrete run: the first case fails, the server of the second
cannot be started, a third case is configured after it. -/
theorem main_aborts_on_internal_error_witness :
    mainLoop resolveAny confSample status0 ([caseFails] ++ caseBroken :: [caseSucceeds]) =
      .internalError
        ⟨2, 0, 1, [⟨"handshake", none, some "exit status 1", "Failed"⟩]⟩
        "exec: not found" :=
  (main_aborts_on_internal_error resolveAny confSample [caseFails] [caseSucceeds]
    caseBroken.1 caseBroken.2 status0
    ⟨1, 0, 1, [⟨"handshake", none, some "exit status 1", "Failed"⟩]⟩
    ⟨2, 0, 1, [⟨"handshake", none, some "exit status 1", "Failed"⟩]⟩
    "exec: not found" (by decide) (by decide)).1

/-- C7: for every list of cases that all have final statuses (no endpoint
construction fails and every `shuttle` returns), the loop of `main` from the
initial aggregator reaches `reportResults` with: ran the number of cases,
succeeded the number of cases whose two final statuses are both nil, failed
the number of the other cases, ran = succeeded + failed, and a failure list
of exactly failed entries, the reports of the failing cases in case order. -/
theorem main_counts_cases (resolve : String → Except GoError UDPAddr)
    (conf : endpoints) (cases : List (testCase × CaseEnv))
    (hall : ∀ c ∈ cases, (finalStatuses resolve conf c).isSome = true) :
    ∃ status : testStatus,
      mainLoop resolve conf status0 cases = .reported status ∧
      status.ran = cases.length ∧
      status.succeeded = (cases.filter (passes resolve conf)).length ∧
      status.failed = (cases.filter (fun c => !passes resolve conf c)).length ∧
      status.ran = status.succeeded + status.failed ∧
      status.failures.length = status.failed ∧
      status.failures = cases.filterMap (reportOf resolve conf) ∧
      status.failures.map (fun r => r.testCase) =
        (cases.filter (fun c => !passes resolve conf c)).map (fun c => c.1.Name) := by
  refine ⟨_, mainLoop_reported_from resolve conf cases status0 hall, ?_, ?_, ?_, ?_, ?_, ?_, ?_⟩
  · simp [status0]
  · simp [status0]
  · simp [status0]
  · simp only [status0, Nat.zero_add]
    exact length_filter_split (passes resolve conf) cases
  · have hlen := congrArg List.length (reportOf_names resolve conf cases hall)
    simpa [status0] using hlen
  · simp [status0]
  · simpa [status0] using reportOf_names resolve conf cases hall

/-- C7 at the scenario of the specification: the first case fails, the
second succeeds. -/
theorem main_counts_cases_witness :
    (∀ c ∈ [caseFails, caseSucceeds], (finalStatuses resolveAny confSample c).isSome = true) ∧
    mainLoop resolveAny confSample status0 [caseFails, caseSucceeds] =
      .reported ⟨2, 1, 1, [⟨"handshake", none, some "exit status 1", "Failed"⟩]⟩ :=
  have hall : ∀ c ∈ [caseFails, caseSucceeds],
      (finalStatuses resolveAny confSample c).isSome = true := by decide
  ⟨hall, by
    obtain ⟨status, hmain, -, -, -, -, -, hfail, -⟩ :=
      main_counts_cases resolveAny confSample [caseFails, caseSucceeds] hall
    rw [hmain]
    rw [mainLoop_reported_from resolveAny confSample _ status0 hall] at hmain
    rw [← MainResult.reported.inj hmain]
    decide⟩

/-! ## The datagram relay: theorems -/

/-- One pass of `shuttle1` leaves a source address that is set as it is. -/
theorem shuttle1Step_addr_of_some (src dst : endpoint) (arrival : Arrival)
    (os : Option GoError) (a : UDPAddr) (h : src.addr = some a) :
    (shuttle1Step src dst arrival os).1.addr = some a := by
  cases arrival with
  | failed err => simpa [shuttle1Step, ReadFromUDP] using h
  | datagram payload sender => simp [shuttle1Step, ReadFromUDP, h]

/-- One pass of `shuttle1` that reads a datagram sets an unset source address
to the sender. -/
theorem shuttle1Step_addr_of_none (src dst : endpoint) (payload : List Byte)
    (sender : UDPAddr) (os : Option GoError) (h : src.addr = none) :
    (shuttle1Step src dst (.datagram payload sender) os).1.addr = some sender := by
  simp [shuttle1Step, ReadFromUDP, h]

/-- One pass of `shuttle1` whose read fails changes nothing and goes on. -/
theorem shuttle1Step_failed (src dst : endpoint) (err : GoError) (os : Option GoError) :
    shuttle1Step src dst (.failed err) os = (src, none, true) := by
  simp [shuttle1Step, ReadFromUDP]

/-- A step of the relay keeps a client address that is set. -/
theorem relayStep_cl_addr (st : RelayState) (ev : RelayEvent) (a : UDPAddr)
    (h : st.cl.addr = some a) : (relayStep st ev).cl.addr = some a := by
  unfold relayStep
  cases ev.dir with
  | clientToServer =>
    cases hgo : st.c2s with
    | false => simpa using h
    | true => simpa using shuttle1Step_addr_of_some st.cl st.sr ev.arrival ev.os a h
  | serverToClient =>
    cases hgo : st.s2c with
    | false => simpa using h
    | true => simpa using h

/-- A step of the relay keeps a server address that is set. -/
theorem relayStep_sr_addr (st : RelayState) (ev : RelayEvent) (a : UDPAddr)
    (h : st.sr.addr = some a) : (relayStep st ev).sr.addr = some a := by
  unfold relayStep
  cases ev.dir with
  | clientToServer =>
    cases hgo : st.c2s with
    | false => simpa using h
    | true => simpa using h
  | serverToClient =>
    cases hgo : st.s2c with
    | false => simpa using h
    | true => simpa using shuttle1Step_addr_of_some st.sr st.cl ev.arrival ev.os a h

/-- The relay keeps a client address that is set. -/
theorem relay_cl_addr (evs : List RelayEvent) (st : RelayState) (a : UDPAddr)
    (h : st.cl.addr = some a) : (relay st evs).cl.addr = some a := by
  induction evs generalizing st with
  | nil => simpa [relay] using h
  | cons ev rest ih =>
    simp only [relay, List.foldl_cons]
    exact ih (relayStep st ev) (relayStep_cl_addr st ev a h)

/-- The relay keeps a server address that is set. -/
theorem relay_sr_addr (evs : List RelayEvent) (st : RelayState) (a : UDPAddr)
    (h : st.sr.addr = some a) : (relay st evs).sr.addr = some a := by
  induction evs generalizing st with
  | nil => simpa [relay] using h
  | cons ev rest ih =>
    simp only [relay, List.foldl_cons]
    exact ih (relayStep st ev) (relayStep_sr_addr st ev a h)

/-- While the client-to-server loop runs with the client address unset, the
relay ends with the sender of the first datagram that loop reads. -/
theorem relay_cl_addr_of_none (evs : List RelayEvent) (st : RelayState)
    (hgo : st.c2s = true) (h : st.cl.addr = none) :
    (relay st evs).cl.addr = firstSender .clientToServer evs := by
  induction evs generalizing st with
  | nil => simpa [relay, firstSender] using h
  | cons ev rest ih =>
    obtain ⟨dir, arrival, os⟩ := ev
    simp only [relay, List.foldl_cons]
    cases arrival with
    | failed err =>
      have hstep : (relayStep st ⟨dir, .failed err, os⟩).c2s = true ∧
          (relayStep st ⟨dir, .failed err, os⟩).cl.addr = none := by
        cases dir <;> cases hs : st.s2c <;>
          simp [relayStep, hgo, hs, shuttle1Step_failed, h]
      simpa [firstSender] using ih _ hstep.1 hstep.2
    | datagram payload sender =>
      cases dir with
      | clientToServer =>
        have hstep : (relayStep st ⟨.clientToServer, .datagram payload sender, os⟩).cl.addr =
            some sender := by
          simpa [relayStep, hgo] using
            shuttle1Step_addr_of_none st.cl st.sr payload sender os h
        simpa [firstSender] using relay_cl_addr rest _ sender hstep
      | serverToClient =>
        have hstep : (relayStep st ⟨.serverToClient, .datagram payload sender, os⟩).c2s = true ∧
            (relayStep st ⟨.serverToClient, .datagram payload sender, os⟩).cl.addr = none := by
          cases hs : st.s2c <;> simp [relayStep, hgo, hs, h]
        simpa [firstSender] using ih _ hstep.1 hstep.2

/-- While the server-to-client loop runs with the server address unset, the
relay ends with the sender of the first datagram that loop reads. -/
theorem relay_sr_addr_of_none (evs : List RelayEvent) (st : RelayState)
    (hgo : st.s2c = true) (h : st.sr.addr = none) :
    (relay st evs).sr.addr = firstSender .serverToClient evs := by
  induction evs generalizing st with
  | nil => simpa [relay, firstSender] using h
  | cons ev rest ih =>
    obtain ⟨dir, arrival, os⟩ := ev
    simp only [relay, List.foldl_cons]
    cases arrival with
    | failed err =>
      have hstep : (relayStep st ⟨dir, .failed err, os⟩).s2c = true ∧
          (relayStep st ⟨dir, .failed err, os⟩).sr.addr = none := by
        cases dir <;> cases hs : st.c2s <;>
          simp [relayStep, hgo, hs, shuttle1Step_failed, h]
      simpa [firstSender] using ih _ hstep.1 hstep.2
    | datagram payload sender =>
      cases dir with
      | serverToClient =>
        have hstep : (relayStep st ⟨.serverToClient, .datagram payload sender, os⟩).sr.addr =
            some sender := by
          simpa [relayStep, hgo] using
            shuttle1Step_addr_of_none st.sr st.cl payload sender os h
        simpa [firstSender] using relay_sr_addr rest _ sender hstep
      | clientToServer =>
        have hstep : (relayStep st ⟨.clientToServer, .datagram payload sender, os⟩).s2c = true ∧
            (relayStep st ⟨.clientToServer, .datagram payload sender, os⟩).sr.addr = none := by
          cases hs : st.c2s <;> simp [relayStep, hgo, hs, h]
        simpa [firstSender] using ih _ hstep.1 hstep.2

/-- C8: the peer address of an endpoint is a set-once latch of `shuttle1`.
For every relay state and every sequence of relay passes, whatever the
senders of the datagrams: an address that is set is the same after the
sequence, for the client and for the server; and from the start of the relay
an unset address ends as the sender of the first datagram that the
endpoint's own loop reads without error (and stays unset when there is
none). -/
theorem peer_addr_set_once (st : RelayState) (cl sr : endpoint) (evs : List RelayEvent) :
    (∀ a, st.cl.addr = some a → (relay st evs).cl.addr = some a) ∧
    (∀ a, st.sr.addr = some a → (relay st evs).sr.addr = some a) ∧
    (cl.addr = none →
      (relay (relayInit cl sr) evs).cl.addr = firstSender .clientToServer evs) ∧
    (sr.addr = none →
      (relay (relayInit cl sr) evs).sr.addr = firstSender .serverToClient evs) :=
  ⟨fun a h => relay_cl_addr evs st a h,
   fun a h => relay_sr_addr evs st a h,
   fun h => relay_cl_addr_of_none evs (relayInit cl sr) rfl h,
   fun h => relay_sr_addr_of_none evs (relayInit cl sr) rfl h⟩

/-- C10: relay transparency of one pass of `shuttle1`, in both directions.
When the loop of a direction reads a datagram of at most `kMaxUdpPacket`
bytes while the destination endpoint's peer address is resolved, the pass
issues exactly one write: on the destination's socket, to the destination's
peer address, of exactly the bytes of the datagram in their order. -/
theorem relay_transparent (st : RelayState) (payload : List Byte) (sender peer : UDPAddr)
    (os : Option GoError) (hlen : payload.length ≤ kMaxUdpPacket) :
    (st.c2s = true → st.sr.addr = some peer →
      (relayStep st ⟨.clientToServer, .datagram payload sender, os⟩).writes =
        st.writes ++ [⟨st.sr.sock, payload, some peer, os⟩]) ∧
    (st.s2c = true → st.cl.addr = some peer →
      (relayStep st ⟨.serverToClient, .datagram payload sender, os⟩).writes =
        st.writes ++ [⟨st.cl.sock, payload, some peer, os⟩]) := by
  have htake : List.take (min payload.length kMaxUdpPacket) payload = payload := by
    rw [Nat.min_eq_left hlen]
    exact List.take_length payload
  constructor
  · intro hgo hpeer
    simp [relayStep, hgo, shuttle1Step, ReadFromUDP, WriteToUDP, hpeer, htake]
  · intro hgo hpeer
    simp [relayStep, hgo, shuttle1Step, ReadFromUDP, WriteToUDP, hpeer, htake]

/-! ## Server port discovery: theorems -/

/-- C9 fails as stated: a blank first line, and the first line `domain`, are
not decimal port numbers, yet with Go's resolver `newServerEndpoint` returns
an endpoint (with port 0, respectively 53) and the run is not aborted. -/
theorem newServerEndpoint_accepts_non_port_line :
    isDecimalPort (TrimSpace "\n") = false ∧
    newServerEndpoint (ResolveUDPAddr goServices) confSample.Server .roleServer []
        envBlankLine =
      .ok { srSample with addr := some ⟨"localhost", 0⟩ } ∧
    isDecimalPort (TrimSpace "domain\n") = false ∧
    newServerEndpoint (ResolveUDPAddr goServices) confSample.Server .roleServer []
        envServiceName =
      .ok { srSample with addr := some ⟨"localhost", 53⟩ } ∧
    mainLoop (ResolveUDPAddr goServices) confSample status0
        [(caseA, ⟨envOk, envBlankLine, eventsClean⟩)] =
      .reported ⟨1, 1, 0, []⟩ :=
  ⟨rfl, rfl, rfl, rfl, rfl⟩

/-- C9 as amended: when `net.ResolveUDPAddr` rejects `localhost:` followed by
the trimmed first line of the server's standard output, `newServerEndpoint`
returns an error and no endpoint, which is the resolver's error when the
steps before the read succeeded; once the client endpoint is built, `run`
returns the error of `newServerEndpoint` with the aggregator as it was, and
the loop of `main` stops with that error as an internal error without running
a later case. -/
theorem newServerEndpoint_rejected_line_aborts (resolve : String → Except GoError UDPAddr)
    (conf : endpoints) (t : testCase) (env : EndpointEnv) (line : String) (err : GoError)
    (hline : env.readString = .ok line)
    (hres : resolve ("localhost:" ++ TrimSpace line) = .error err) :
    ∃ e : GoError,
      newServerEndpoint resolve conf.Server .roleServer t.ServerArgs env = .error e ∧
      (∀ (sock : Nat) (port : String), env.listenUDP = .ok sock →
        env.splitHostPort = .ok port → getOutputs env = none → env.start = none → e = err) ∧
      (∀ (status : testStatus) (cenv : EndpointEnv) (events : List (Side × MuxEvent))
          (cl : endpoint) (later : List (testCase × CaseEnv)),
        newClientEndpoint conf.Client .roleClient t.ClientArgs cenv = .ok cl →
        run resolve status t conf ⟨cenv, env, events⟩ = .returned status (some e) ∧
        mainLoop resolve conf status ((t, ⟨cenv, env, events⟩) :: later) =
          .internalError { status with ran := status.ran + 1 } e) := by
  have hex : ∃ e : GoError,
      newServerEndpoint resolve conf.Server .roleServer t.ServerArgs env = .error e ∧
      (∀ (sock : Nat) (port : String), env.listenUDP = .ok sock →
        env.splitHostPort = .ok port → getOutputs env = none → env.start = none →
        e = err) := by
    unfold newServerEndpoint
    cases h1 : env.listenUDP with
    | error e1 => exact ⟨e1, rfl, fun sock port h => absurd h (by simp)⟩
    | ok usock =>
      cases h2 : env.splitHostPort with
      | error e2 => exact ⟨e2, rfl, fun sock port _ h => absurd h (by simp)⟩
      | ok p =>
        cases h3 : getOutputs env with
        | some e3 => exact ⟨e3, rfl, fun sock port _ _ h => absurd h (by simp)⟩
        | none =>
          cases h4 : env.start with
          | some e4 => exact ⟨e4, rfl, fun sock port _ _ _ h => absurd h (by simp)⟩
          | none =>
            refine ⟨err, ?_, fun _ _ _ _ _ _ => rfl⟩
            simp only [hline, hres]
  obtain ⟨e, hnew, hsame⟩ := hex
  refine ⟨e, hnew, hsame, ?_⟩
  intro status cenv events cl later hcl
  have hrun : ∀ s : testStatus,
      run resolve s t conf ⟨cenv, env, events⟩ = .returned s (some e) := by
    intro s
    simp [run, hcl, hnew]
  exact ⟨hrun status, by simp only [mainLoop, hrun]⟩

/-- C9 as amended, at a concrete case: the server greets instead of
announcing its port. -/
theorem newServerEndpoint_rejected_line_aborts_witness :
    newServerEndpoint (ResolveUDPAddr goServices) confSample.Server .roleServer
        caseA.ServerArgs envGreeting = .error "unknown port" ∧
    mainLoop (ResolveUDPAddr goServices) confSample status0
        [(caseA, ⟨envOk, envGreeting, eventsClean⟩), caseSucceeds] =
      .internalError ⟨1, 0, 0, []⟩ "unknown port" := by
  obtain ⟨e, hnew, hsame, hrun⟩ :=
    newServerEndpoint_rejected_line_aborts (ResolveUDPAddr goServices) confSample caseA
      envGreeting "listening on 4433\n" "unknown port" rfl rfl
  have he : e = "unknown port" := hsame 3 "50000" rfl rfl rfl rfl
  subst he
  exact ⟨hnew, (hrun status0 envOk eventsClean clSample [caseSucceeds] rfl).2⟩

/-- C10 at a concrete pass: the client sends `PING` once both peer addresses
are known. -/
theorem relay_transparent_witness :
    ([80, 73, 78, 71] : List Byte).length ≤ kMaxUdpPacket ∧
    (relayStep
        (relayInit { clSample with addr := some ⟨"127.0.0.1", 40000⟩ } srSample)
        ⟨.clientToServer, .datagram [80, 73, 78, 71] ⟨"127.0.0.1", 40000⟩, none⟩).writes =
      [⟨3, [80, 73, 78, 71], some ⟨"localhost", 4433⟩, none⟩] :=
  ⟨by decide,
   (relay_transparent
      (relayInit { clSample with addr := some ⟨"127.0.0.1", 40000⟩ } srSample)
      [80, 73, 78, 71] ⟨"127.0.0.1", 40000⟩ ⟨"localhost", 4433⟩ none (by decide)).1 rfl rfl⟩

end Qdrive
